import Mathlib

/-!
Verification development for the `mothrpy` client library.

The Python modules `mothrpy/client.py` and `mothrpy/request.py` are shallowly
embedded below.  Python strings are modelled as Lean `String`s, with the Python
`str` operations (`split`, `replace`, iteration, f-string rendering of `None`)
implemented over the underlying character list so that every definition is
executable.  Remote GraphQL calls are modelled as oracle functions supplied as
explicit arguments; Python exceptions are modelled by the `PyErr` type and
`Except`.  Python `warnings.warn` calls are modelled by returning the list of
warning messages emitted by a method alongside its result.
-/

namespace Mothrpy

/-- Python exceptions raised (or, for `fieldResolutionError`, merely described
by the specification) in the embedded code.  `fieldResolutionError` is
modelled from the spec: the spec's error taxonomy postulates a
`FieldResolutionError` carrying the offending path and segment, which has no
counterpart anywhere in the source. -/
inductive PyErr where
  | valueError (msg : String)
  | keyError (key : String)
  | attributeError (type field : String)
  | indexError (msg : String)
  | stopIteration
  | runtimeError (msg : String)
  | fieldResolutionError (path segment : String)
deriving DecidableEq

instance {ε α : Type} [DecidableEq ε] [DecidableEq α] : DecidableEq (Except ε α) := fun x y =>
  match x, y with
  | .error a, .error b =>
    if h : a = b then .isTrue (by rw [h]) else .isFalse (fun he => h (Except.error.inj he))
  | .ok a, .ok b =>
    if h : a = b then .isTrue (by rw [h]) else .isFalse (fun he => h (Except.ok.inj he))
  | .error _, .ok _ => .isFalse (fun he => Except.noConfusion he)
  | .ok _, .error _ => .isFalse (fun he => Except.noConfusion he)

/-- Python `str(x)` for `x : Optional[str]`: `None` renders as `"None"`,
as happens inside the f-strings of `subscribe`/`subscribe_messages`. -/
def pyStrOpt : Option String → String
  | none => "None"
  | some s => s

/-- Python `s.split(sep)` for a single-character separator, over the
character list of the string. -/
def splitChar (sep : Char) : List Char → List (List Char)
  | [] => [[]]
  | c :: cs =>
    let r := splitChar sep cs
    if c = sep then [] :: r
    else
      match r with
      | [] => [[c]]
      | g :: gs => (c :: g) :: gs

/-- Python `s.split(sep)` returning strings. -/
def pySplit (sep : Char) (s : String) : List String :=
  (splitChar sep s.data).map String.mk

/-- Python `c in s` for a single character. -/
def pyContainsChar (c : Char) (s : String) : Bool :=
  s.data.contains c

/-- Python `dict.__setitem__` / single-key update on an insertion-ordered
association list: an existing key is overwritten in place, a new key is
appended at the end. -/
def setItem : List (String × String) → String → String → List (String × String)
  | [], k, v => [(k, v)]
  | (k', v') :: rest, k, v =>
    if k' = k then (k, v) :: rest else (k', v') :: setItem rest k v

/-- Python `dict.update(other)`: fold `setItem` over the entries of `other`. -/
def updateDict (d : List (String × String)) (other : List (String × String)) :
    List (String × String) :=
  other.foldl (fun acc kv => setItem acc kv.1 kv.2) d

/-- Python tuple unpacking `k, v = s` of a string `s`: succeeds exactly when
the string has two characters, otherwise raises `ValueError`.  This is what
`submit` does to each element produced by iterating the `outputMetadata`
dict (its keys). -/
def pyUnpack2 (s : String) : Except PyErr (String × String) :=
  match s.data with
  | [a, b] => .ok (String.mk [a], String.mk [b])
  | [] => .error (.valueError "not enough values to unpack (expected 2, got 0)")
  | [_] => .error (.valueError "not enough values to unpack (expected 2, got 1)")
  | _ => .error (.valueError "too many values to unpack (expected 2)")

/-! ## `JobRequest.is_s3_uri` (request.py lines 157-160)

The source checks `re.match(r"^s3\:\/\/[a-zA-Z0-9\-\.]+[a-zA-Z]\/\S*?$", uri)`
under Python `re` semantics.  The embedding below implements the same
recognizer structurally:
* `^s3://` anchors the literal prefix (`re.match` anchors at the start);
* `[a-zA-Z0-9\-\.]+[a-zA-Z]` followed by the literal `/` forces the bucket
  label to be exactly the run of bucket characters before the first `/`
  (the character class cannot contain `/`, so no other backtracking split is
  possible), with length at least two and a final ASCII letter;
* `\S*?$` accepts any run of non-whitespace characters, where `$` matches at
  the end of the string or just before a single trailing newline (Python `$`
  semantics without `re.MULTILINE`).  Whitespace is the full Unicode set
  recognised by Python's `\s` on `str` patterns. -/

/-- Characters of the regex class `[a-zA-Z0-9\-\.]`. -/
def isBucketChar (c : Char) : Bool :=
  ('a' ≤ c && c ≤ 'z') || ('A' ≤ c && c ≤ 'Z') || ('0' ≤ c && c ≤ '9') || c == '-' || c == '.'

/-- Characters of the regex class `[a-zA-Z]`. -/
def isAsciiLetter (c : Char) : Bool :=
  ('a' ≤ c && c ≤ 'z') || ('A' ≤ c && c ≤ 'Z')

/-- Whitespace as matched by Python's `\s` on `str` patterns: the Unicode
whitespace set `U+0009`-`U+000D`, `U+001C`-`U+0020`, `U+0085`, `U+00A0`,
`U+1680`, `U+2000`-`U+200A`, `U+2028`, `U+2029`, `U+202F`, `U+205F` and
`U+3000` (the characters on which `re.match(r"\s", chr(c))` succeeds). -/
def isPySpace (c : Char) : Bool :=
  ('\x09' ≤ c && c ≤ '\x0d') || ('\x1c' ≤ c && c ≤ '\x20') ||
  c == '\x85' || c == '\xa0' || c == '\u1680' ||
  ('\u2000' ≤ c && c ≤ '\u200a') || c == '\u2028' || c == '\u2029' ||
  c == '\u202f' || c == '\u205f' || c == '\u3000'

/-- The tail `\S*?$` of the S3-URI regex: every character is non-whitespace,
except that a single trailing newline is tolerated because `$` also matches
just before it. -/
def matchKeyEnd : List Char → Bool
  | [] => true
  | [c] => c == '\n' || !isPySpace c
  | c :: c' :: cs => !isPySpace c && matchKeyEnd (c' :: cs)

/-- Whether the last character of a bucket run is an ASCII letter. -/
def lastIsLetter (b : List Char) : Bool :=
  match b.getLast? with
  | some c => isAsciiLetter c
  | none => false

/-- Body of the regex after the `s3://` prefix: the bucket label is the run
of bucket characters before the first `/` (at least two of them, the last an
ASCII letter), and the remainder after that `/` must satisfy `\S*?$`. -/
def s3_body (rest : List Char) : Bool :=
  match rest.dropWhile isBucketChar with
  | c :: key =>
    c == '/' && decide (2 ≤ (rest.takeWhile isBucketChar).length)
      && lastIsLetter (rest.takeWhile isBucketChar) && matchKeyEnd key
  | [] => false

/-- The literal prefix matched by `^s3\:\/\/`. -/
def s3Head : List Char := ['s', '3', ':', '/', '/']

/-- Embedding of `JobRequest.is_s3_uri`: `bool(re.match(r"^s3\:\/\/[a-zA-Z0-9\-\.]+[a-zA-Z]\/\S*?$", uri))`. -/
def is_s3_uri (uri : String) : Bool :=
  if uri.data.take 5 = s3Head then s3_body (uri.data.drop 5) else false

/-- The URI shape asserted by the specification (spec side, for comparison
with the recognizer): `s3://bucket/key` with the bucket label drawn from
`[A-Za-z0-9.-]+` and ending in a letter, and a key of **one or more**
non-whitespace characters. -/
def claimedS3Format (uri : String) : Prop :=
  ∃ bucket key : List Char,
    uri.data = s3Head ++ bucket ++ '/' :: key ∧
    bucket ≠ [] ∧ bucket.all isBucketChar = true ∧ lastIsLetter bucket = true ∧
    key ≠ [] ∧ key.all (fun c => !isPySpace c) = true

/-- The URI shape the recognizer actually accepts: the bucket label needs at
least two characters (a `[A-Za-z0-9.-]` run followed by a letter), the key
may be **empty**, and a single trailing newline is tolerated after the key. -/
def amendedS3Format (uri : String) : Prop :=
  ∃ bucket key t : List Char,
    uri.data = s3Head ++ bucket ++ '/' :: (key ++ t) ∧
    2 ≤ bucket.length ∧ bucket.all isBucketChar = true ∧ lastIsLetter bucket = true ∧
    key.all (fun c => !isPySpace c) = true ∧ (t = [] ∨ t = ['\n'])

/-! ## `MothrClient` session state (client.py) -/

/-- The session-relevant attributes of `client.py`'s `MothrClient`.
`access` and `refresh` are `Option`s because in Python the attributes only
come into existence when `login` first assigns them. -/
structure Session where
  token : Option String
  access : Option String
  refresh : Option String
  headers : List (String × String)
deriving DecidableEq

/-- Embedding of `MothrClient.login` (client.py lines 81-119).  `remote` is the login
mutation oracle: given username and password it returns the `login` payload,
`none` standing for a null response.  `envU`/`envP` model
`os.getenv("MOTHR_USERNAME")`/`os.getenv("MOTHR_PASSWORD")`.  Note the
source's final line `self.headers["Authorization"] = f"Bearer {self.token}"`
renders `self.token`, not the freshly stored `self.access`. -/
def login (st : Session) (remote : String → String → Option (String × String))
    (username password envU envP : Option String) :
    Except PyErr ((String × String) × Session) :=
  let username := match username with | some u => some u | none => envU
  let password := match password with | some p => some p | none => envP
  match username with
  | none => .error (.valueError "Username not provided")
  | some u =>
    match password with
    | none => .error (.valueError "Password not provided")
    | some p =>
      match remote u p with
      | none => .error (.valueError "Login failed")
      | some (acc, ref) =>
        let st1 : Session := { st with access := some acc, refresh := some ref }
        let st2 : Session :=
          { st1 with
            headers := setItem st1.headers "Authorization" ("Bearer " ++ pyStrOpt st1.token) }
        .ok ((acc, ref), st2)

/-- Embedding of `MothrClient.refresh_token` (client.py lines 121-136).  `remote` is the
refresh mutation oracle: given the stored refresh token it returns the new
access token, `none` standing for a null `resp["refresh"]` payload.
Accessing `self.refresh` before any login raises `AttributeError` in Python,
modelled by the `none` branch. -/
def refresh_token (st : Session) (remote : String → Option String) :
    Except PyErr (String × Session) :=
  match st.refresh with
  | none => .error (.attributeError "MothrClient" "refresh")
  | some r =>
    match remote r with
    | none => .error (.valueError "Token refresh failed")
    | some t =>
      let st1 : Session := { st with token := some t }
      let st2 : Session :=
        { st1 with
          headers := setItem st1.headers "Authorization" ("Bearer " ++ pyStrOpt st1.token) }
      .ok (t, st2)

/-! ## `JobRequest` (request.py) -/

/-- A parameter dict built by `add_parameter`: `{"type": ..., "value": ...}`
plus an optional `"name"` entry. -/
structure Param where
  type : String
  value : String
  name : Option String
deriving DecidableEq

/-- The dynamic type of `req_args["outputMetadata"]`: a `str -> str` dict
before `submit`, and the list of `{"key": k, "value": v}` pair dicts that
`submit` overwrites it with. -/
inductive MetaVal where
  | mdict (entries : List (String × String))
  | mpairs (entries : List (String × String))
deriving DecidableEq

/-- The mutable state of a `JobRequest` (request.py lines 149-155):
`req_args["parameters"]`, `req_args["outputMetadata"]`, `job_id`, `status`. -/
structure JobRequestState where
  parameters : List Param
  outputMetadata : MetaVal
  job_id : Option String
  status : Option String
deriving DecidableEq

/-- Warning text of `add_parameter` after submission (request.py 174-177). -/
def paramWarnMsg : String :=
  "job has already been submitted, adding additional parameters will have no effect"

/-- Warning text of `add_output_metadata` after submission (request.py 201-204). -/
def metaWarnMsg : String :=
  "job has already been submitted, adding additional output metadata will have no effect"

/-- Warning text for a non-S3 input/output value (request.py 179). -/
def notS3WarnMsg (param_type value : String) : String :=
  param_type ++ " parameter " ++ value ++ " is not an S3 URI"

/-- Embedding of `JobRequest.add_parameter` (request.py lines 162-184).  Returns the
warnings emitted and the updated state; the parameter is appended
unconditionally. -/
def add_parameter (st : JobRequestState) (value : String) (param_type : String)
    (name : Option String) : List String × JobRequestState :=
  let w1 : List String := if st.job_id.isSome then [paramWarnMsg] else []
  let w2 : List String :=
    if (param_type == "input" || param_type == "output") && !is_s3_uri value then
      [notS3WarnMsg param_type value]
    else []
  let p : Param := { type := param_type, value := value, name := name }
  (w1 ++ w2, { st with parameters := st.parameters ++ [p] })

/-- Embedding of `JobRequest.add_input` (request.py lines 186-188). -/
def add_input (st : JobRequestState) (value : String) (name : Option String) :
    List String × JobRequestState :=
  add_parameter st value "input" name

/-- Embedding of `JobRequest.add_output` (request.py lines 190-192). -/
def add_output (st : JobRequestState) (value : String) (name : Option String) :
    List String × JobRequestState :=
  add_parameter st value "output" name

/-- Embedding of `JobRequest.add_output_metadata` (request.py lines 194-206).  Returns the
warnings emitted and either the updated state or the `AttributeError` that
`dict.update` raises when `submit` has already replaced the dict by a list. -/
def add_output_metadata (st : JobRequestState) (metadata : List (String × String)) :
    List String × Except PyErr JobRequestState :=
  let w : List String := if st.job_id.isSome then [metaWarnMsg] else []
  match st.outputMetadata with
  | .mdict d => (w, .ok { st with outputMetadata := .mdict (updateDict d metadata) })
  | .mpairs _ => (w, .error (.attributeError "list" "update"))

/-- The `submitJob` mutation response consumed by `submit`:
`resp.get("errors")` together with `resp["submitJob"]["job"]`. -/
structure SubmitResp where
  errors : Option String
  jobId : String
  status : String
deriving DecidableEq

/-- The metadata conversion performed at the top of `submit` (request.py
line 214): `[{"key": k, "value": v} for k, v in self.req_args["outputMetadata"]]`.
Iterating a dict yields its *keys*, so each key string is tuple-unpacked into
`k, v`; the mapped values are never consulted.  Iterating the pair-dict list
left behind by a previous `submit` yields `{"key": ..., "value": ...}` dicts,
each of which unpacks into its two keys `("key", "value")`. -/
def metadataPairs : MetaVal → Except PyErr (List (String × String))
  | .mdict entries => entries.mapM (fun e => pyUnpack2 e.1)
  | .mpairs entries => entries.mapM (fun _ => .ok ("key", "value"))

/-- Embedding of `JobRequest.submit` (request.py lines 208-228): converts the metadata,
stores the pair list, performs the mutation, raises on an error payload, and
otherwise records `job_id` and `status` and returns the job id. -/
def submit (st : JobRequestState) (resp : SubmitResp) :
    Except PyErr (String × JobRequestState) := do
  let md ← metadataPairs st.outputMetadata
  let st1 : JobRequestState := { st with outputMetadata := .mpairs md }
  match resp.errors with
  | some e => .error (.valueError ("Error submitting job request: " ++ e))
  | none =>
    let st2 : JobRequestState := { st1 with job_id := some resp.jobId, status := some resp.status }
    .ok (resp.jobId, st2)

/-- A job record as returned by the `job` query
(`jobId`, `service`, `status`, `result`, `error`). -/
structure JobRecord where
  jobId : String
  service : String
  status : String
  result : String
  error : String
deriving DecidableEq

/-- Message of the `ValueError` raised by `query_job` before submission. -/
def noJobIdMsg : String := "Job ID is None, have you submitted the job?"

/-- Embedding of `JobRequest.query_job` (request.py lines 230-247).  `remote` is the job
query oracle, mapping the requested field list to the returned record.  The
second component records whether a remote call was attempted at all. -/
def query_job (st : JobRequestState) (remote : List String → JobRecord)
    (fields : List String) : Except PyErr JobRecord × Bool :=
  match st.job_id with
  | none => (.error (.valueError noJobIdMsg), false)
  | some _ => (.ok (remote fields), true)

/-- Embedding of `JobRequest.check_status` (request.py lines 249-256). -/
def check_status (st : JobRequestState) (remote : List String → JobRecord) :
    Except PyErr String × Bool :=
  match query_job st remote ["status"] with
  | (.ok job, b) => (.ok job.status, b)
  | (.error e, b) => (.error e, b)

/-- Embedding of `JobRequest.result` (request.py lines 258-265). -/
def job_result (st : JobRequestState) (remote : List String → JobRecord) :
    Except PyErr JobRecord × Bool :=
  query_job st remote ["jobId", "service", "status", "result", "error"]

/-- The job id interpolated into the subscription documents of
`subscribe`/`subscribe_messages` by `f"{self.job_id}"`: `None` renders as the
literal string `"None"`. -/
def subscription_key (st : JobRequestState) : String :=
  pyStrOpt st.job_id

/-- Embedding of `JobRequest.subscribe` (request.py lines 267-283).  `ws` maps a
subscription key to the list of events the websocket delivers; the code takes
element `[0]`, an `IndexError` if no event arrives.  There is no `job_id`
precondition check. -/
def subscribe (st : JobRequestState) (ws : String → List String) : Except PyErr String :=
  match ws (subscription_key st) with
  | [] => .error (.indexError "list index out of range")
  | e :: _ => .ok e

/-- Embedding of `JobRequest.subscribe_messages` (request.py lines 285-295): yields every
event of the subscription keyed the same way; again no precondition check. -/
def subscribe_messages (st : JobRequestState) (ws : String → List String) : List String :=
  ws (subscription_key st)

/-- The polling set of `run_job`'s `while status in ["submitted", "running"]`. -/
def inPollSet (s : String) : Bool :=
  (["submitted", "running"] : List String).contains s

/-- The polling loop of `run_job` (request.py lines 328-330): while the
observed status is in the polling set, obtain the next status via
`check_status`; the oracle list holds the successive query responses (an
exhausted oracle is the mock's `StopIteration`). -/
def poll_loop (st : JobRequestState) : String → List JobRecord → Except PyErr String
  | s, rest =>
    if inPollSet s then
      match rest with
      | [] => .error .stopIteration
      | r :: rest' => do
        let s' ← (check_status st (fun _ => r)).1
        poll_loop st s' rest'
    else .ok s

/-- The oracle for one `run_job` execution: the `submitJob` response, the
successive `job` query responses consumed by `check_status`, and the final
record fetched by `result`. -/
structure RunOracle where
  submitResp : SubmitResp
  polls : List JobRecord
  finalRecord : JobRecord

/-- Embedding of `JobRequest.run_job` (request.py lines 297-334): submit, check status,
poll while the status is `submitted`/`running`, fetch the result, and raise
`RuntimeError` when the final status is not `complete` and `return_failed`
is false. -/
def run_job (st : JobRequestState) (o : RunOracle) (return_failed : Bool) :
    Except PyErr JobRecord := do
  let p ← submit st o.submitResp
  match o.polls with
  | [] => .error .stopIteration
  | r0 :: rest => do
    let s0 ← (check_status p.2 (fun _ => r0)).1
    let fs ← poll_loop p.2 s0 rest
    let result ← (job_result p.2 (fun _ => o.finalRecord)).1
    if fs ≠ "complete" ∧ return_failed = false then
      .error (.runtimeError ("Job " ++ p.1 ++ " failed: " ++ result.error))
    else .ok result

/-! ## Field resolution (client.py lines 179-221)

`gql.dsl` objects are modelled as follows: a `DSLType` carries its GraphQL
type name and the names of its fields; `getattr` on it yields a fresh
`DSLField` (or raises `AttributeError` for an unknown field name, as
`gql.dsl` does); `DSLField.select` appends sub-selections; `str(field_obj)`
prints the field followed by its selections in braces, which the source
strips back down to the field name.  Dictionaries (`self.field_map` and its
per-type entries) are insertion-ordered association lists whose lookup raises
`KeyError` on a missing key. -/

/-- A `gql.dsl.DSLType`: type name plus its selectable field names. -/
structure DSLType where
  name : String
  fields : List String
deriving DecidableEq

/-- A `gql.dsl.DSLField`: field name plus selected sub-fields. -/
structure DSLField where
  name : String
  selections : List DSLField

/-- Python `getattr(t, f)` on a `DSLType`: a fresh selection-free field, or
`AttributeError` when the type has no such field. -/
def DSLType.getattr (t : DSLType) (f : String) : Except PyErr DSLField :=
  if t.fields.contains f then .ok ⟨f, []⟩ else .error (.attributeError t.name f)

/-- Python `field_obj.select(sub)`. -/
def DSLField.select (f : DSLField) (subs : List DSLField) : DSLField :=
  ⟨f.name, f.selections ++ subs⟩

mutual

/-- Python `str(field_obj)`: the field name, followed by its selections in braces
when there are any. -/
def render : DSLField → String
  | ⟨n, []⟩ => n
  | ⟨n, s :: ss⟩ => n ++ " \x7b\n" ++ renderList (s :: ss) ++ "\n\x7d"

/-- Newline-joined rendering of a selection list. -/
def renderList : List DSLField → String
  | [] => ""
  | [f] => render f
  | f :: f' :: fs => render f ++ "\n" ++ renderList (f' :: fs)

end

/-- The `field_key` computation of `select_field` (client.py lines 210-213):
strip `{`, `}` and newlines from `str(field_obj)` and take the last
space-separated token. -/
def field_key_of (f : DSLField) : String :=
  let s := (render f).data.filter fun c => c != '\x7b' && c != '\x7d' && c != '\n'
  match (splitChar ' ' s).getLast? with
  | some l => String.mk l
  | none => ""

/-- Lookup `d[k]` on a Python dict modelled as an association list: `KeyError` when
the key is absent. -/
def lookupD {α : Type} (d : List (String × α)) (k : String) : Except PyErr α :=
  match d.find? (fun e => e.1 == k) with
  | some e => .ok e.2
  | none => .error (.keyError k)

/-- Embedding of `MothrClient.select_field` (client.py lines 197-221): pop the first
remaining segment, look the current field's key up in the per-root-type field
map, resolve the segment on the found type, and recurse while segments
remain, wrapping each level in a `select`. -/
def select_field (field_map : List (String × DSLType)) (field_obj : DSLField) :
    List String → Except PyErr DSLField
  | [] => .error (.indexError "pop from empty list")
  | [field_name] => do
    let t ← lookupD field_map (field_key_of field_obj)
    let g ← t.getattr field_name
    .ok (field_obj.select [g])
  | field_name :: r :: rs => do
    let t ← lookupD field_map (field_key_of field_obj)
    let g ← t.getattr field_name
    let sub ← select_field field_map g (r :: rs)
    .ok (field_obj.select [sub])

/-- Embedding of `MothrClient.resolve_field` (client.py lines 179-195).  `field_map` is
`self.field_map`, keyed by root type name (`str(obj._type)`); a dotted field
is split on `.` and handed to `select_field`, an undotted one resolved
directly on the root type. -/
def resolve_field (field_map : List (String × List (String × DSLType)))
    (obj : DSLType) (field : String) : Except PyErr DSLField :=
  if pyContainsChar '.' field then do
    let nested ← lookupD field_map obj.name
    match pySplit '.' field with
    | [] => .error (.indexError "list index out of range")
    | f0 :: rest => do
      let g ← obj.getattr f0
      select_field nested g rest
  else obj.getattr field

/-- The linear leaf path selected by a resolved field: the field's own name
followed by the path of its single sub-selection. -/
def leafPathOf : DSLField → List String
  | ⟨n, []⟩ => [n]
  | ⟨n, [g]⟩ => n :: leafPathOf g
  | ⟨n, _ :: _ :: _⟩ => [n]

/-- Whether a resolution outcome is the spec's `FieldResolutionError`. -/
def raisesFieldResolutionError (r : Except PyErr DSLField) : Bool :=
  match r with
  | .error (.fieldResolutionError _ _) => true
  | _ => false

/-! ## Shared lemmas -/

/-- Splitting a list at the separator following an all-`p` block: `takeWhile`
recovers exactly the block and `dropWhile` the rest. -/
theorem takeWhile_append_split {p : Char → Bool} :
    ∀ (b : List Char) (c : Char) (k : List Char), b.all p = true → p c = false →
      (b ++ c :: k).takeWhile p = b ∧ (b ++ c :: k).dropWhile p = c :: k := by
  intro b
  induction b with
  | nil =>
    intro c k _ hc
    constructor
    · simp [List.takeWhile, hc]
    · simp [List.dropWhile, hc]
  | cons x xs ih =>
    intro c k hall hc
    simp only [List.all_cons, Bool.and_eq_true] at hall
    have hx : p x = true := hall.1
    have hxs : xs.all p = true := hall.2
    have h := ih c k hxs hc
    constructor
    · simp [List.takeWhile, hx, h.1]
    · simp [List.dropWhile, hx, h.2]

/-! ## C1 -/

/-- C1 counterexample: on a `JobRequest` whose `job_id` is already set, both
`add_parameter` and `add_output_metadata` emit their warning but still mutate
the stored state — the parameter is appended and the metadata is merged, so
the claim's "no observable state change" is false. -/
theorem add_after_submit_mutates_counterexample :
    (add_parameter ⟨[], .mdict [], some "test", some "submitted"⟩ "foo" "parameter" none).1
        = [paramWarnMsg] ∧
    (add_parameter ⟨[], .mdict [], some "test", some "submitted"⟩ "foo" "parameter" none).2.parameters
        ≠ ([] : List Param) ∧
    (add_output_metadata ⟨[], .mdict [], some "test", some "submitted"⟩ [("foo", "bar")]).1
        = [metaWarnMsg] ∧
    (add_output_metadata ⟨[], .mdict [], some "test", some "submitted"⟩ [("foo", "bar")]).2
        ≠ .ok ⟨[], .mdict [], some "test", some "submitted"⟩ := by
  refine ⟨rfl, by decide, rfl, by decide⟩

/-- C1 amended: after submission (`job_id` set) each mutator emits its
warning, but the state still changes exactly as before submission —
`add_parameter` appends the parameter dict and `add_output_metadata` merges
the entries into the metadata mapping (while it is still a mapping). -/
theorem add_after_submit_warns_but_mutates (st : JobRequestState) (v t : String)
    (n : Option String) (md d : List (String × String))
    (h : st.job_id.isSome = true) (hd : st.outputMetadata = .mdict d) :
    paramWarnMsg ∈ (add_parameter st v t n).1 ∧
    (add_parameter st v t n).2 = { st with parameters := st.parameters ++ [⟨t, v, n⟩] } ∧
    metaWarnMsg ∈ (add_output_metadata st md).1 ∧
    (add_output_metadata st md).2 = .ok { st with outputMetadata := .mdict (updateDict d md) } := by
  refine ⟨?_, rfl, ?_, ?_⟩
  · simp [add_parameter, h]
  · simp [add_output_metadata, h, hd]
  · simp [add_output_metadata, hd]

/-- C1 witness: the amended theorem instantiated on a submitted request. -/
theorem add_after_submit_warns_but_mutates_witness :
    paramWarnMsg ∈ (add_parameter ⟨[], .mdict [], some "test", some "submitted"⟩
        "foo" "parameter" none).1 ∧
    (add_parameter ⟨[], .mdict [], some "test", some "submitted"⟩ "foo" "parameter" none).2
        = ⟨[⟨"parameter", "foo", none⟩], .mdict [], some "test", some "submitted"⟩ ∧
    metaWarnMsg ∈ (add_output_metadata ⟨[], .mdict [], some "test", some "submitted"⟩
        [("foo", "bar")]).1 ∧
    (add_output_metadata ⟨[], .mdict [], some "test", some "submitted"⟩ [("foo", "bar")]).2
        = .ok ⟨[], .mdict [("foo", "bar")], some "test", some "submitted"⟩ :=
  add_after_submit_warns_but_mutates ⟨[], .mdict [], some "test", some "submitted"⟩
    "foo" "parameter" none [("foo", "bar")] [] (by decide) rfl

/-! ## C2 -/

/-- C2: `client.py`'s `login` stores the new tokens in `self.access` /
`self.refresh` but then renders the *stale* `self.token` into the
authorization header.  On a fresh client (no configured token) a successful
login with access token `"access-token"` therefore leaves the header as the
literal `"Bearer None"`, not `"Bearer access-token"` as the claim states. -/
theorem login_header_uses_stale_token :
    login ⟨none, none, none, []⟩ (fun _ _ => some ("access-token", "refresh-token"))
        (some "test") (some "password") none none
      = .ok (("access-token", "refresh-token"),
          ⟨none, some "access-token", some "refresh-token",
            [("Authorization", "Bearer None")]⟩) := rfl

/-! ## C4 -/

/-- C4: `submit` iterates the `outputMetadata` dict without `.items()`, so it
tuple-unpacks each *key*.  A normal key such as `"foo"` raises
`ValueError: too many values to unpack`; a two-character key such as `"ab"`
is silently split into its characters and the mapped value (`"zz"`) is
dropped — never the claimed key/value pairing. -/
theorem submit_metadata_unpack_bug :
    submit ⟨[], .mdict [("foo", "bar")], none, none⟩ ⟨none, "test", "submitted"⟩
      = .error (.valueError "too many values to unpack (expected 2)") ∧
    submit ⟨[], .mdict [("ab", "zz")], none, none⟩ ⟨none, "test", "submitted"⟩
      = .ok ("test", ⟨[], .mpairs [("a", "b")], some "test", some "submitted"⟩) :=
  ⟨rfl, rfl⟩

/-! ## C5 -/

/-- C5: with no `job_id`, `check_status` and `result` both raise the
`ValueError` of `query_job` (the spec's `InvalidStateError`) and the remote
oracle is never consulted (second component `false`). -/
theorem pre_submit_queries_fail (st : JobRequestState) (remote : List String → JobRecord)
    (h : st.job_id = none) :
    check_status st remote = (.error (.valueError noJobIdMsg), false) ∧
    job_result st remote = (.error (.valueError noJobIdMsg), false) := by
  constructor
  · simp [check_status, query_job, h]
  · simp [job_result, query_job, h]

/-- C5 witness: a fresh request and an arbitrary concrete oracle. -/
theorem pre_submit_queries_fail_witness :
    check_status ⟨[], .mdict [], none, none⟩ (fun _ => ⟨"", "", "", "", ""⟩)
        = (.error (.valueError noJobIdMsg), false) ∧
    job_result ⟨[], .mdict [], none, none⟩ (fun _ => ⟨"", "", "", "", ""⟩)
        = (.error (.valueError noJobIdMsg), false) :=
  pre_submit_queries_fail ⟨[], .mdict [], none, none⟩ (fun _ => ⟨"", "", "", "", ""⟩) rfl

/-! ## C7 -/

/-- C7: for a session holding a refresh token, `refresh_token` fails with the
`ValueError "Token refresh failed"` (the spec's `TokenRefreshError`) when the
remote call yields no token, and on success replaces only `token` and the
derived `Authorization` header — `refresh` (and `access`) are untouched. -/
theorem refresh_token_frame (st : Session) (remote : String → Option String) (r : String)
    (h : st.refresh = some r) :
    (remote r = none → refresh_token st remote = .error (.valueError "Token refresh failed")) ∧
    (∀ t, remote r = some t →
      refresh_token st remote =
        .ok (t, { st with token := some t, headers := setItem st.headers "Authorization" ("Bearer " ++ t) })) := by
  constructor
  · intro hn
    simp [refresh_token, h, hn]
  · intro t ht
    simp [refresh_token, h, ht, pyStrOpt]

/-- C7 witness: both the failing and the successful refresh on a concrete
session; the refresh token `"refresh-tok"` survives and only the access token
and header move. -/
theorem refresh_token_frame_witness :
    refresh_token ⟨some "old", some "old", some "refresh-tok",
        [("Authorization", "Bearer old")]⟩ (fun _ => none)
      = .error (.valueError "Token refresh failed") ∧
    refresh_token ⟨some "old", some "old", some "refresh-tok",
        [("Authorization", "Bearer old")]⟩ (fun _ => some "new")
      = .ok ("new", ⟨some "new", some "old", some "refresh-tok",
          [("Authorization", "Bearer new")]⟩) := by
  constructor
  · exact (refresh_token_frame
      ⟨some "old", some "old", some "refresh-tok", [("Authorization", "Bearer old")]⟩
      (fun _ => none) "refresh-tok" rfl).1 rfl
  · exact (refresh_token_frame
      ⟨some "old", some "old", some "refresh-tok", [("Authorization", "Bearer old")]⟩
      (fun _ => some "new") "refresh-tok" rfl).2 "new" rfl

/-! ## C10 -/

/-- C10: with no `job_id`, the subscription methods perform no precondition
check: they never raise `query_job`'s invalid-state `ValueError`, and the
subscription is keyed by the literal f-string rendering `"None"` of the
absent job id. -/
theorem subscribe_no_state_check (st : JobRequestState) (ws : String → List String)
    (h : st.job_id = none) :
    subscription_key st = "None" ∧
    subscribe st ws ≠ .error (.valueError noJobIdMsg) ∧
    subscribe_messages st ws = ws "None" := by
  have hk : subscription_key st = "None" := by simp [subscription_key, h, pyStrOpt]
  refine ⟨hk, ?_, by simp [subscribe_messages, hk]⟩
  intro hc
  rw [subscribe, hk] at hc
  cases hws : ws "None" with
  | nil => rw [hws] at hc; exact PyErr.noConfusion (Except.error.inj hc)
  | cons e es => rw [hws] at hc; exact Except.noConfusion hc

/-- C10 witness: a never-submitted request subscribed against a concrete
websocket oracle echoing its key. -/
theorem subscribe_no_state_check_witness :
    subscription_key ⟨[], .mdict [], none, none⟩ = "None" ∧
    subscribe ⟨[], .mdict [], none, none⟩ (fun k => [k ++ ":done"])
        ≠ .error (.valueError noJobIdMsg) ∧
    subscribe_messages ⟨[], .mdict [], none, none⟩ (fun k => [k ++ ":done"])
        = (fun k => [k ++ ":done"]) "None" :=
  subscribe_no_state_check ⟨[], .mdict [], none, none⟩ (fun k => [k ++ ":done"]) rfl

/-! ## C3 -/

/-- Reduction of an `Except` bind whose first action already succeeded. -/
theorem bindOk {ε α β : Type} (a : α) (f : α → Except ε β) :
    (Bind.bind (Except.ok a) f : Except ε β) = f a := rfl

/-- Successful `submit`: the metadata conversion succeeded and the response
carries no error payload, so the pair list is stored and `job_id`/`status`
are recorded. -/
theorem submit_ok (st : JobRequestState) (resp : SubmitResp) (md : List (String × String))
    (hmd : metadataPairs st.outputMetadata = .ok md) (herr : resp.errors = none) :
    submit st resp
      = .ok (resp.jobId, ⟨st.parameters, .mpairs md, some resp.jobId, some resp.status⟩) := by
  simp only [submit, hmd, bindOk, herr]

/-- With a submitted job, `check_status` just reports the status of the
record returned by the query oracle. -/
theorem check_status_submitted (st : JobRequestState) (j : String) (r : JobRecord)
    (h : st.job_id = some j) :
    (check_status st (fun _ => r)).1 = .ok r.status := by
  simp [check_status, query_job, h]

/-- The polling loop observes the statuses of the successive oracle records
and stops at the first one outside `{submitted, running}`; an oracle that
never leaves that set ends in `StopIteration`. -/
theorem poll_loop_spec (st : JobRequestState) (j : String) (h : st.job_id = some j) :
    ∀ (rest : List JobRecord) (s : String),
      poll_loop st s rest =
        match (s :: rest.map (fun r => r.status)).dropWhile inPollSet with
        | [] => .error .stopIteration
        | x :: _ => .ok x := by
  intro rest
  induction rest with
  | nil =>
    intro s
    rw [poll_loop]
    by_cases hs : inPollSet s = true
    · simp [hs, List.dropWhile]
    · simp [Bool.not_eq_true] at hs
      simp [hs, List.dropWhile]
  | cons r rest' ih =>
    intro s
    rw [poll_loop]
    by_cases hs : inPollSet s = true
    · have hc : (check_status st (fun _ => r)).1 = .ok r.status :=
        check_status_submitted st j r h
      simp only [hs, if_true, hc, bindOk]
      rw [ih r.status]
      simp [List.dropWhile, hs]
    · simp [Bool.not_eq_true] at hs
      simp [hs, List.dropWhile]

/-- C3: provided the metadata conversion and the remote submission succeed,
`run_job` submits, polls while the observed status stays in
`{submitted, running}`, fetches the final record, and then: returns it when
the final status is `complete`; returns it when `return_failed` is true; and
otherwise raises `RuntimeError` (the spec's `JobExecutionError`) carrying the
job id and the reported error string. -/
theorem run_job_final_status (st : JobRequestState) (o : RunOracle) (rf : Bool)
    (md : List (String × String)) (fs : String) (tl : List String)
    (hmd : metadataPairs st.outputMetadata = .ok md)
    (herr : o.submitResp.errors = none)
    (hfs : (o.polls.map (fun r => r.status)).dropWhile inPollSet = fs :: tl) :
    run_job st o rf =
      if fs = "complete" then .ok o.finalRecord
      else if rf then .ok o.finalRecord
      else .error (.runtimeError
        ("Job " ++ o.submitResp.jobId ++ " failed: " ++ o.finalRecord.error)) := by
  have hsub := submit_ok st o.submitResp md hmd herr
  cases hpolls : o.polls with
  | nil => simp [hpolls, List.dropWhile] at hfs
  | cons r0 rest =>
    have hjid : (⟨st.parameters, .mpairs md, some o.submitResp.jobId,
        some o.submitResp.status⟩ : JobRequestState).job_id = some o.submitResp.jobId := rfl
    have hc := check_status_submitted _ o.submitResp.jobId r0 hjid
    have hp := poll_loop_spec _ o.submitResp.jobId hjid rest r0.status
    rw [hpolls, List.map_cons] at hfs
    rw [hfs] at hp
    have hp' : poll_loop (⟨st.parameters, .mpairs md, some o.submitResp.jobId,
        some o.submitResp.status⟩ : JobRequestState) r0.status rest = .ok fs := hp.trans rfl
    have hres : (job_result (⟨st.parameters, .mpairs md, some o.submitResp.jobId,
        some o.submitResp.status⟩ : JobRequestState) (fun _ => o.finalRecord)).1
          = .ok o.finalRecord := by
      simp [job_result, query_job]
    simp only [run_job, hsub, bindOk, hpolls, hc, hp', hres]
    by_cases hcomp : fs = "complete"
    · simp [hcomp]
    · cases rf with
      | true => simp [hcomp]
      | false => simp [hcomp]

/-- C3 witness: a concrete request polled through
`submitted, running, complete` returns the final record; one ending in
`failed` returns the record when `return_failed` is true and raises the
job-id-carrying `RuntimeError` when it is false. -/
theorem run_job_final_status_witness :
    run_job ⟨[], .mdict [], none, none⟩
        ⟨⟨none, "job-1", "submitted"⟩,
          [⟨"job-1", "svc", "submitted", "", ""⟩, ⟨"job-1", "svc", "running", "", ""⟩,
            ⟨"job-1", "svc", "complete", "", ""⟩],
          ⟨"job-1", "svc", "complete", "ok", ""⟩⟩ false
      = .ok ⟨"job-1", "svc", "complete", "ok", ""⟩ ∧
    run_job ⟨[], .mdict [], none, none⟩
        ⟨⟨none, "job-1", "submitted"⟩,
          [⟨"job-1", "svc", "submitted", "", ""⟩, ⟨"job-1", "svc", "failed", "", "boom"⟩],
          ⟨"job-1", "svc", "failed", "", "boom"⟩⟩ true
      = .ok ⟨"job-1", "svc", "failed", "", "boom"⟩ ∧
    run_job ⟨[], .mdict [], none, none⟩
        ⟨⟨none, "job-1", "submitted"⟩,
          [⟨"job-1", "svc", "submitted", "", ""⟩, ⟨"job-1", "svc", "failed", "", "boom"⟩],
          ⟨"job-1", "svc", "failed", "", "boom"⟩⟩ false
      = .error (.runtimeError "Job job-1 failed: boom") := by
  refine ⟨?_, ?_, ?_⟩
  · have h := run_job_final_status ⟨[], .mdict [], none, none⟩
      ⟨⟨none, "job-1", "submitted"⟩,
        [⟨"job-1", "svc", "submitted", "", ""⟩, ⟨"job-1", "svc", "running", "", ""⟩,
          ⟨"job-1", "svc", "complete", "", ""⟩],
        ⟨"job-1", "svc", "complete", "ok", ""⟩⟩ false [] "complete" [] rfl rfl (by decide)
    simpa using h
  · have h := run_job_final_status ⟨[], .mdict [], none, none⟩
      ⟨⟨none, "job-1", "submitted"⟩,
        [⟨"job-1", "svc", "submitted", "", ""⟩, ⟨"job-1", "svc", "failed", "", "boom"⟩],
        ⟨"job-1", "svc", "failed", "", "boom"⟩⟩ true [] "failed" [] rfl rfl (by decide)
    simpa using h
  · have h := run_job_final_status ⟨[], .mdict [], none, none⟩
      ⟨⟨none, "job-1", "submitted"⟩,
        [⟨"job-1", "svc", "submitted", "", ""⟩, ⟨"job-1", "svc", "failed", "", "boom"⟩],
        ⟨"job-1", "svc", "failed", "", "boom"⟩⟩ false [] "failed" [] rfl rfl (by decide)
    simpa using h

/-! ## C6 and C8 -/

/-- Reduction of an `Except` bind whose first action already failed. -/
theorem bindErr {ε α β : Type} (e : ε) (f : α → Except ε β) :
    (Bind.bind (Except.error e) f : Except ε β) = .error e := rfl

/-- A successful `getattr` on a `DSLType` yields the fresh selection-free
field named by the attribute. -/
theorem getattr_ok_inv (t : DSLType) (f : String) (g : DSLField)
    (h : t.getattr f = .ok g) : g = ⟨f, []⟩ := by
  unfold DSLType.getattr at h
  split at h
  · exact (Except.ok.inj h).symm
  · exact Except.noConfusion h

/-- Whenever `select_field` succeeds, the resulting selection runs through
the base field's name followed by every remaining segment — no segment can be
dropped. -/
theorem select_field_ok_path (fm : List (String × DSLType)) :
    ∀ (segs : List String) (g f : DSLField), g.selections = [] →
      select_field fm g segs = .ok f → leafPathOf f = g.name :: segs := by
  intro segs
  induction segs with
  | nil =>
    intro g f _ h
    rw [select_field] at h
    exact Except.noConfusion h
  | cons fn rest ih =>
    intro g f hsel h
    cases rest with
    | nil =>
      rw [select_field] at h
      cases hl : lookupD fm (field_key_of g) with
      | error e => rw [hl, bindErr] at h; exact Except.noConfusion h
      | ok t =>
        rw [hl, bindOk] at h
        cases hg : t.getattr fn with
        | error e => rw [hg, bindErr] at h; exact Except.noConfusion h
        | ok g' =>
          rw [hg, bindOk] at h
          have hg' := getattr_ok_inv t fn g' hg
          subst hg'
          have hf := Except.ok.inj h
          rw [← hf]
          cases g with
          | mk n sels =>
            simp only at hsel
            subst hsel
            simp [DSLField.select, leafPathOf]
    | cons r rs =>
      rw [select_field] at h
      cases hl : lookupD fm (field_key_of g) with
      | error e => rw [hl, bindErr] at h; exact Except.noConfusion h
      | ok t =>
        rw [hl, bindOk] at h
        cases hg : t.getattr fn with
        | error e => rw [hg, bindErr] at h; exact Except.noConfusion h
        | ok g' =>
          rw [hg, bindOk] at h
          have hg' := getattr_ok_inv t fn g' hg
          cases hsf : select_field fm g' (r :: rs) with
          | error e => rw [hsf, bindErr] at h; exact Except.noConfusion h
          | ok sub =>
            rw [hsf, bindOk] at h
            have hpath := ih g' sub (by rw [hg']) hsf
            have hf := Except.ok.inj h
            rw [← hf]
            cases g with
            | mk n sels =>
              simp only at hsel
              subst hsel
              simp only [DSLField.select, List.nil_append]
              rw [leafPathOf, hpath, hg']

/-- C6 counterexample: resolving the dotted path `"parameters.name"` against
an unrecognized root type raises a bare `KeyError` naming only the type —
not the `FieldResolutionError` carrying path and segment that the claim
requires. -/
theorem resolve_field_error_kind_counterexample :
    resolve_field [] ⟨"Job", ["parameters"]⟩ "parameters.name" = .error (.keyError "Job") ∧
    raisesFieldResolutionError
        (resolve_field [] ⟨"Job", ["parameters"]⟩ "parameters.name") = false :=
  ⟨rfl, rfl⟩

/-- Python's `split` never returns an empty list of groups. -/
theorem splitChar_ne_nil (sep : Char) : ∀ l : List Char, splitChar sep l ≠ [] := by
  intro l
  cases l with
  | nil => simp [splitChar]
  | cons c cs =>
    by_cases hc : c = sep
    · simp [splitChar, hc]
    · cases hs : splitChar sep cs with
      | nil => simp [splitChar, hc, hs]
      | cons g gs => simp [splitChar, hc, hs]

/-- Splitting on a separator that occurs in the list yields at least two
groups. -/
theorem splitChar_two (sep : Char) :
    ∀ l : List Char, l.contains sep = true →
      ∃ g g2 gs, splitChar sep l = g :: g2 :: gs := by
  intro l
  induction l with
  | nil => intro h; exact absurd h (by simp)
  | cons c cs ih =>
    intro h
    by_cases hc : c = sep
    · cases hs : splitChar sep cs with
      | nil => exact absurd hs (splitChar_ne_nil sep cs)
      | cons g2 gs => exact ⟨[], g2, gs, by simp [splitChar, hc, hs]⟩
    · have hcs : cs.contains sep = true := by
        simp only [List.contains_cons, Bool.or_eq_true, beq_iff_eq] at h
        rcases h with h | h
        · exact absurd h.symm hc
        · exact h
      obtain ⟨g, g2, gs, hs⟩ := ih hcs
      exact ⟨c :: g, g2, gs, by simp [splitChar, hc, hs]⟩

/-- A dotted field therefore splits into at least two segments, so the
`f_split[0]` / `f_split[1:]` accesses of `resolve_field` are total. -/
theorem pySplit_two (field : String) (h : pyContainsChar '.' field = true) :
    ∃ a r rs, pySplit '.' field = a :: r :: rs := by
  rw [pyContainsChar] at h
  obtain ⟨g, g2, gs, hs⟩ := splitChar_two '.' field.data h
  exact ⟨String.mk g, String.mk g2, gs.map String.mk, by simp [pySplit, hs]⟩

/-- A failing dict lookup raises exactly `KeyError` on the looked-up key. -/
theorem lookupD_error_inv {α : Type} (d : List (String × α)) (k : String) (e : PyErr)
    (h : lookupD d k = .error e) : e = .keyError k := by
  rw [lookupD] at h
  cases hf : d.find? (fun x => x.1 == k) with
  | some p =>
    rw [hf] at h
    have h2 : (Except.ok p.2 : Except PyErr α) = .error e := h
    exact Except.noConfusion h2
  | none =>
    rw [hf] at h
    have h2 : (Except.error (PyErr.keyError k) : Except PyErr α) = .error e := h
    exact (Except.error.inj h2).symm

/-- A failing `getattr` raises exactly `AttributeError` naming the type and
the missing field. -/
theorem getattr_error_inv (t : DSLType) (f : String) (e : PyErr)
    (h : t.getattr f = .error e) : e = .attributeError t.name f := by
  unfold DSLType.getattr at h
  split at h
  · exact Except.noConfusion h
  · exact (Except.error.inj h).symm

/-- Every failure of `select_field` on a non-empty segment list, at any
recursion depth, is a `KeyError` or an `AttributeError`. -/
theorem select_field_error_kinds (fm : List (String × DSLType)) :
    ∀ (segs : List String) (g : DSLField) (e : PyErr), segs ≠ [] →
      select_field fm g segs = .error e →
      (∃ k, e = .keyError k) ∨ (∃ ty fl, e = .attributeError ty fl) := by
  intro segs
  induction segs with
  | nil => intro g e hne _; exact absurd rfl hne
  | cons fn rest ih =>
    intro g e _ h
    cases rest with
    | nil =>
      rw [select_field] at h
      cases hl : lookupD fm (field_key_of g) with
      | error e0 =>
        rw [hl, bindErr] at h
        have h1 : e0 = e := Except.error.inj h
        exact .inl ⟨field_key_of g, by
          rw [← h1]; exact lookupD_error_inv fm (field_key_of g) e0 hl⟩
      | ok t =>
        rw [hl, bindOk] at h
        cases hg : t.getattr fn with
        | error e1 =>
          rw [hg, bindErr] at h
          have h1 : e1 = e := Except.error.inj h
          exact .inr ⟨t.name, fn, by rw [← h1]; exact getattr_error_inv t fn e1 hg⟩
        | ok g' =>
          rw [hg, bindOk] at h
          exact Except.noConfusion h
    | cons r rs =>
      rw [select_field] at h
      cases hl : lookupD fm (field_key_of g) with
      | error e0 =>
        rw [hl, bindErr] at h
        have h1 : e0 = e := Except.error.inj h
        exact .inl ⟨field_key_of g, by
          rw [← h1]; exact lookupD_error_inv fm (field_key_of g) e0 hl⟩
      | ok t =>
        rw [hl, bindOk] at h
        cases hg : t.getattr fn with
        | error e1 =>
          rw [hg, bindErr] at h
          have h1 : e1 = e := Except.error.inj h
          exact .inr ⟨t.name, fn, by rw [← h1]; exact getattr_error_inv t fn e1 hg⟩
        | ok g' =>
          rw [hg, bindOk] at h
          cases hs : select_field fm g' (r :: rs) with
          | error e2 =>
            rw [hs, bindErr] at h
            have h1 : e2 = e := Except.error.inj h
            rw [← h1]
            exact ih g' e2 (by simp) hs
          | ok sub =>
            rw [hs, bindOk] at h
            exact Except.noConfusion h

/-- C6 amended: on a dotted path, an unrecognized root type fails with
`KeyError` naming that type; a first segment that is not a field of the root
type fails with `AttributeError` naming the type and segment; at any level
of the `select_field` recursion, a current field with no type-map entry (a
leaf intermediate) fails with `KeyError` naming that field key, and a found
type lacking the next segment fails with `AttributeError` naming the type
and segment; every resolution failure is such a `KeyError` or
`AttributeError` — never a `FieldResolutionError` carrying path and
segment — and resolution never silently drops a field: every success
selects exactly the full segment path. -/
theorem resolve_field_errors_or_full_path
    (tm : List (String × List (String × DSLType))) (obj : DSLType) (field : String)
    (hdot : pyContainsChar '.' field = true) :
    (tm.find? (fun e => e.1 == obj.name) = none →
      resolve_field tm obj field = .error (.keyError obj.name)) ∧
    (∀ fm f0 rest, lookupD tm obj.name = .ok fm → pySplit '.' field = f0 :: rest →
      obj.fields.contains f0 = false →
      resolve_field tm obj field = .error (.attributeError obj.name f0)) ∧
    (∀ (fm : List (String × DSLType)) (g : DSLField) (segs : List String),
      segs ≠ [] → fm.find? (fun x => x.1 == field_key_of g) = none →
      select_field fm g segs = .error (.keyError (field_key_of g))) ∧
    (∀ (fm : List (String × DSLType)) (g : DSLField) (t : DSLType) (fn : String)
      (rest : List String),
      lookupD fm (field_key_of g) = .ok t → t.fields.contains fn = false →
      select_field fm g (fn :: rest) = .error (.attributeError t.name fn)) ∧
    (∀ e, resolve_field tm obj field = .error e →
      (∃ k, e = .keyError k) ∨ (∃ ty fl, e = .attributeError ty fl)) ∧
    (∀ f, resolve_field tm obj field = .ok f → leafPathOf f = pySplit '.' field) := by
  refine ⟨?_, ?_, ?_, ?_, ?_, ?_⟩
  · intro hnone
    simp [resolve_field, hdot, lookupD, hnone, bindErr]
  · intro fm f0 rest hfm hsp hcont
    have hga : obj.getattr f0 = .error (.attributeError obj.name f0) := by
      unfold DSLType.getattr
      rw [hcont]
      rfl
    rw [resolve_field, if_pos hdot, hfm, bindOk, hsp]
    show Bind.bind (obj.getattr f0) (fun g => select_field fm g rest)
      = Except.error (PyErr.attributeError obj.name f0)
    rw [hga, bindErr]
  · intro fm g segs hne hnone
    have hl : lookupD fm (field_key_of g) = .error (.keyError (field_key_of g)) := by
      rw [lookupD, hnone]
    cases segs with
    | nil => exact absurd rfl hne
    | cons s ss =>
      cases ss with
      | nil => rw [select_field, hl, bindErr]
      | cons s2 ss2 => rw [select_field, hl, bindErr]
  · intro fm g t fn rest hl hcont
    have hga : t.getattr fn = .error (.attributeError t.name fn) := by
      unfold DSLType.getattr
      rw [hcont]
      rfl
    cases rest with
    | nil => rw [select_field, hl, bindOk, hga, bindErr]
    | cons r rs => rw [select_field, hl, bindOk, hga, bindErr]
  · intro e he
    rw [resolve_field, if_pos hdot] at he
    cases hl : lookupD tm obj.name with
    | error e0 =>
      rw [hl, bindErr] at he
      have h1 : e0 = e := Except.error.inj he
      exact .inl ⟨obj.name, by rw [← h1]; exact lookupD_error_inv tm obj.name e0 hl⟩
    | ok nested =>
      rw [hl, bindOk] at he
      obtain ⟨a, r, rs, hsp⟩ := pySplit_two field hdot
      rw [hsp] at he
      have he2 : (do
          let g ← obj.getattr a
          select_field nested g (r :: rs)) = Except.error e := he
      cases hg : obj.getattr a with
      | error e1 =>
        rw [hg, bindErr] at he2
        have h1 : e1 = e := Except.error.inj he2
        exact .inr ⟨obj.name, a, by rw [← h1]; exact getattr_error_inv obj a e1 hg⟩
      | ok g =>
        rw [hg, bindOk] at he2
        exact select_field_error_kinds nested (r :: rs) g e (by simp) he2
  · intro f h
    rw [resolve_field] at h
    rw [if_pos hdot] at h
    cases hl : lookupD tm obj.name with
    | error e => rw [hl, bindErr] at h; exact Except.noConfusion h
    | ok nested =>
      rw [hl, bindOk] at h
      cases hsplit : pySplit '.' field with
      | nil =>
        rw [hsplit] at h
        have h2 : (Except.error (PyErr.indexError "list index out of range")
            : Except PyErr DSLField) = Except.ok f := h
        exact Except.noConfusion h2
      | cons f0 rest =>
        rw [hsplit] at h
        have h2 : (do
            let g ← obj.getattr f0
            select_field nested g rest) = Except.ok f := h
        cases hg : obj.getattr f0 with
        | error e => rw [hg, bindErr] at h2; exact Except.noConfusion h2
        | ok g =>
          rw [hg, bindOk] at h2
          cases rest with
          | nil =>
            rw [select_field] at h2
            exact Except.noConfusion h2
          | cons r rs =>
            have hg' := getattr_ok_inv obj f0 g hg
            have hp := select_field_ok_path nested (r :: rs) g f (by rw [hg']) h2
            rw [hp, hg']

/-- C6 witness: each failure class at a concrete input — unrecognized root
type, unrecognized first segment, leaf intermediate (missing type-map
entry), unrecognized deeper field — plus the full-path guarantee on a
successful three-level resolution. -/
theorem resolve_field_errors_or_full_path_witness :
    resolve_field [] ⟨"Job", ["parameters"]⟩ "parameters.name"
        = .error (.keyError "Job") ∧
    resolve_field [("Job", [("user", ⟨"User", ["name"]⟩)])] ⟨"Job", ["user"]⟩
        "parameters.name" = .error (.attributeError "Job" "parameters") ∧
    select_field [] ⟨"parameters", []⟩ ["name"] = .error (.keyError "parameters") ∧
    select_field [("parameters", ⟨"Metadata", ["key", "value"]⟩)] ⟨"parameters", []⟩
        ["fileType"] = .error (.attributeError "Metadata" "fileType") ∧
    leafPathOf ⟨"parameters", [⟨"fileType", [⟨"name", []⟩]⟩]⟩
        = pySplit '.' "parameters.fileType.name" := by
  refine ⟨?_, ?_, ?_, ?_, ?_⟩
  · exact (resolve_field_errors_or_full_path [] ⟨"Job", ["parameters"]⟩
      "parameters.name" (by decide)).1 rfl
  · exact (resolve_field_errors_or_full_path [("Job", [("user", ⟨"User", ["name"]⟩)])]
      ⟨"Job", ["user"]⟩ "parameters.name" (by decide)).2.1
      [("user", ⟨"User", ["name"]⟩)] "parameters" ["name"] rfl (by decide) (by decide)
  · exact (resolve_field_errors_or_full_path [] ⟨"Job", ["parameters"]⟩
      "parameters.name" (by decide)).2.2.1 [] ⟨"parameters", []⟩ ["name"]
      (by decide) rfl
  · exact (resolve_field_errors_or_full_path [] ⟨"Job", ["parameters"]⟩
      "parameters.name" (by decide)).2.2.2.1
      [("parameters", ⟨"Metadata", ["key", "value"]⟩)] ⟨"parameters", []⟩
      ⟨"Metadata", ["key", "value"]⟩ "fileType" [] (by decide) (by decide)
  · exact (resolve_field_errors_or_full_path
      [("Service", [("parameters", ⟨"ServiceParameter", ["name", "fileType"]⟩),
        ("fileType", ⟨"FileType", ["name"]⟩)])]
      ⟨"Service", ["name", "version", "parameters"]⟩
      "parameters.fileType.name" (by decide)).2.2.2.2.2
      ⟨"parameters", [⟨"fileType", [⟨"name", []⟩]⟩]⟩ rfl

/-- C8: resolving a three-segment dotted path over a known type chain yields
exactly the manual composition of the equivalent nested selection calls:
`getattr(root, a).select(getattr(T1, b).select(getattr(T2, c)))`, the final
segment resolved as a leaf selection. -/
theorem resolve_field_three_level
    (tm : List (String × List (String × DSLType))) (fm : List (String × DSLType))
    (obj T1 T2 : DSLType) (a b c field : String)
    (hdot : pyContainsChar '.' field = true)
    (hsplit : pySplit '.' field = [a, b, c])
    (htm : lookupD tm obj.name = .ok fm)
    (ha : obj.fields.contains a = true)
    (hka : field_key_of ⟨a, []⟩ = a)
    (hfa : lookupD fm a = .ok T1)
    (hb : T1.fields.contains b = true)
    (hkb : field_key_of ⟨b, []⟩ = b)
    (hfb : lookupD fm b = .ok T2)
    (hc : T2.fields.contains c = true) :
    obj.getattr a = .ok ⟨a, []⟩ ∧ T1.getattr b = .ok ⟨b, []⟩ ∧ T2.getattr c = .ok ⟨c, []⟩ ∧
    resolve_field tm obj field
      = .ok ((DSLField.mk a []).select [(DSLField.mk b []).select [DSLField.mk c []]]) := by
  have hga : obj.getattr a = .ok ⟨a, []⟩ := by rw [DSLType.getattr, if_pos ha]
  have hgb : T1.getattr b = .ok ⟨b, []⟩ := by rw [DSLType.getattr, if_pos hb]
  have hgc : T2.getattr c = .ok ⟨c, []⟩ := by rw [DSLType.getattr, if_pos hc]
  refine ⟨hga, hgb, hgc, ?_⟩
  have e1 : resolve_field tm obj field
      = Bind.bind (obj.getattr a) (fun g => select_field fm g [b, c]) := by
    rw [resolve_field, if_pos hdot, htm, bindOk, hsplit]
  rw [e1, hga, bindOk]
  rw [select_field, hka, hfa, bindOk, hgb, bindOk]
  rw [select_field, hkb, hfb, bindOk, hgc, bindOk]
  rfl

/-- C8 witness: the `"parameters.fileType.name"` chain of the source's
`Service` field map resolved against concrete `DSLType`s. -/
theorem resolve_field_three_level_witness :
    (DSLType.mk "Service" ["name", "version", "parameters"]).getattr "parameters"
        = .ok ⟨"parameters", []⟩ ∧
    (DSLType.mk "ServiceParameter" ["name", "fileType"]).getattr "fileType"
        = .ok ⟨"fileType", []⟩ ∧
    (DSLType.mk "FileType" ["name"]).getattr "name" = .ok ⟨"name", []⟩ ∧
    resolve_field
        [("Service", [("parameters", ⟨"ServiceParameter", ["name", "fileType"]⟩),
          ("fileType", ⟨"FileType", ["name"]⟩)])]
        ⟨"Service", ["name", "version", "parameters"]⟩ "parameters.fileType.name"
      = .ok ((DSLField.mk "parameters" []).select
          [(DSLField.mk "fileType" []).select [DSLField.mk "name" []]]) :=
  resolve_field_three_level
    [("Service", [("parameters", ⟨"ServiceParameter", ["name", "fileType"]⟩),
      ("fileType", ⟨"FileType", ["name"]⟩)])]
    [("parameters", ⟨"ServiceParameter", ["name", "fileType"]⟩),
      ("fileType", ⟨"FileType", ["name"]⟩)]
    ⟨"Service", ["name", "version", "parameters"]⟩
    ⟨"ServiceParameter", ["name", "fileType"]⟩ ⟨"FileType", ["name"]⟩
    "parameters" "fileType" "name" "parameters.fileType.name"
    (by decide) (by decide) rfl (by decide) (by decide) rfl (by decide) (by decide) rfl
    (by decide)

/-! ## C9 -/

/-- Characterization of the regex tail `\S*?$`: it accepts exactly the runs
of non-whitespace characters followed by an optional single newline. -/
theorem matchKeyEnd_iff (l : List Char) :
    matchKeyEnd l = true ↔
      ∃ k t : List Char, l = k ++ t ∧ k.all (fun c => !isPySpace c) = true ∧
        (t = [] ∨ t = ['\n']) := by
  induction l with
  | nil =>
    constructor
    · intro _
      exact ⟨[], [], rfl, rfl, .inl rfl⟩
    · intro _
      rfl
  | cons c cs ih =>
    cases cs with
    | nil =>
      constructor
      · intro h
        rw [matchKeyEnd] at h
        by_cases hc : c = '\n'
        · exact ⟨[], ['\n'], by rw [hc]; rfl, rfl, .inr rfl⟩
        · have hcb : (c == '\n') = false := by
            simp [hc]
          rw [hcb, Bool.false_or] at h
          refine ⟨[c], [], rfl, ?_, .inl rfl⟩
          simp [List.all_cons, h]
      · rintro ⟨k, t, hl, hk, ht⟩
        cases ht with
        | inl h0 =>
          subst h0
          rw [List.append_nil] at hl
          subst hl
          simp only [List.all_cons, List.all_nil, Bool.and_true] at hk
          rw [matchKeyEnd, hk, Bool.or_true]
        | inr h1 =>
          subst h1
          cases k with
          | nil =>
            simp only [List.nil_append] at hl
            have hc := (List.cons.inj hl).1
            subst hc
            rfl
          | cons x xs =>
            simp only [List.cons_append] at hl
            have := (List.cons.inj hl).2
            exact absurd this (by simp)
    | cons c' cs' =>
      constructor
      · intro h
        rw [matchKeyEnd] at h
        rw [Bool.and_eq_true] at h
        obtain ⟨k, t, hl, hk, ht⟩ := ih.mp h.2
        refine ⟨c :: k, t, by rw [List.cons_append, hl], ?_, ht⟩
        simp [List.all_cons, h.1, hk]
      · rintro ⟨k, t, hl, hk, ht⟩
        cases k with
        | nil =>
          simp only [List.nil_append] at hl
          cases ht with
          | inl h0 => subst h0; exact absurd hl (by simp)
          | inr h1 => subst h1; exact absurd hl (by simp)
        | cons x xs =>
          simp only [List.cons_append] at hl
          have hx := (List.cons.inj hl).1
          have hxs := (List.cons.inj hl).2
          subst hx
          simp only [List.all_cons, Bool.and_eq_true] at hk
          rw [matchKeyEnd, Bool.and_eq_true]
          exact ⟨hk.1, ih.mpr ⟨xs, t, hxs, hk.2, ht⟩⟩

/-- C9 counterexample: the recognizer accepts the empty key `"s3://bucket/"`
and the trailing-newline key `"s3://bucket/key\n"`, both outside the claimed
format, while it rejects `"s3://a/key"` although the claim's bucket shape
(`[A-Za-z0-9.-]+` ending in a letter) admits the one-letter bucket `a`. -/
theorem is_s3_uri_claim_counterexample :
    is_s3_uri "s3://bucket/" = true ∧ ¬ claimedS3Format "s3://bucket/" ∧
    is_s3_uri "s3://bucket/key\n" = true ∧ ¬ claimedS3Format "s3://bucket/key\n" ∧
    is_s3_uri "s3://a/key" = false ∧ claimedS3Format "s3://a/key" := by
  refine ⟨by decide, ?_, by decide, ?_, by decide, ?_⟩
  · rintro ⟨b, k, heq, hbne, hball, hblast, hkne, hkall⟩
    have hdrop : ("s3://bucket/".data).drop 5 = b ++ '/' :: k := by
      rw [heq, List.append_assoc]
      exact List.drop_left s3Head (b ++ '/' :: k)
    have hspl := takeWhile_append_split b '/' k hball (by decide)
    have hk : '/' :: k = ("s3://bucket/".data.drop 5).dropWhile isBucketChar := by
      rw [hdrop, hspl.2]
    rw [show ("s3://bucket/".data.drop 5).dropWhile isBucketChar = ['/'] from by decide] at hk
    exact hkne (List.cons.inj hk).2
  · rintro ⟨b, k, heq, hbne, hball, hblast, hkne, hkall⟩
    have hdrop : ("s3://bucket/key\n".data).drop 5 = b ++ '/' :: k := by
      rw [heq, List.append_assoc]
      exact List.drop_left s3Head (b ++ '/' :: k)
    have hspl := takeWhile_append_split b '/' k hball (by decide)
    have hk : '/' :: k = ("s3://bucket/key\n".data.drop 5).dropWhile isBucketChar := by
      rw [hdrop, hspl.2]
    rw [show ("s3://bucket/key\n".data.drop 5).dropWhile isBucketChar
        = ['/', 'k', 'e', 'y', '\n'] from by decide] at hk
    have hkval := (List.cons.inj hk).2
    rw [hkval] at hkall
    exact absurd hkall (by decide)
  · exact ⟨['a'], ['k', 'e', 'y'], by decide, by decide, by decide, by decide,
      by decide, by decide⟩

/-- C9 amended: the recognizer accepts a string exactly when it has the form
`s3://bucket/key` where the bucket label is a `[A-Za-z0-9.-]` run of length
at least two ending in an ASCII letter, the key is a possibly **empty** run
of non-whitespace characters, and an optional single newline closes the
string. -/
theorem is_s3_uri_amended_iff (uri : String) :
    is_s3_uri uri = true ↔ amendedS3Format uri := by
  constructor
  · intro h
    rw [is_s3_uri] at h
    by_cases hpre : uri.data.take 5 = s3Head
    · rw [if_pos hpre] at h
      have hdata : uri.data = s3Head ++ uri.data.drop 5 := by
        rw [← hpre, List.take_append_drop]
      cases hdw : (uri.data.drop 5).dropWhile isBucketChar with
      | nil =>
        rw [s3_body, hdw] at h
        exact absurd h (by simp)
      | cons c key =>
        rw [s3_body, hdw] at h
        have h2 : (c == '/'
            && decide (2 ≤ ((uri.data.drop 5).takeWhile isBucketChar).length)
            && lastIsLetter ((uri.data.drop 5).takeWhile isBucketChar)
            && matchKeyEnd key) = true := h
        simp only [Bool.and_eq_true, beq_iff_eq, decide_eq_true_eq] at h2
        obtain ⟨⟨⟨hc, hlen⟩, hlast⟩, hkey⟩ := h2
        obtain ⟨k, t, hkey_eq, hkall, ht⟩ := (matchKeyEnd_iff key).mp hkey
        refine ⟨(uri.data.drop 5).takeWhile isBucketChar, k, t, ?_, hlen,
          List.all_takeWhile, hlast, hkall, ht⟩
        have hrest := List.takeWhile_append_dropWhile isBucketChar (uri.data.drop 5)
        rw [hdw, hc, hkey_eq] at hrest
        rw [List.append_assoc, hrest]
        exact hdata
    · rw [if_neg hpre] at h
      exact absurd h (by simp)
  · rintro ⟨b, k, t, heq, hlen, hball, hlast, hkall, ht⟩
    rw [is_s3_uri]
    have h5 : uri.data.take 5 = s3Head := by
      rw [heq, List.append_assoc]
      exact List.take_left s3Head (b ++ '/' :: (k ++ t))
    rw [if_pos h5]
    have hdrop : uri.data.drop 5 = b ++ '/' :: (k ++ t) := by
      rw [heq, List.append_assoc]
      exact List.drop_left s3Head (b ++ '/' :: (k ++ t))
    have hspl := takeWhile_append_split b '/' (k ++ t) hball (by decide)
    rw [s3_body, hdrop, hspl.1, hspl.2]
    have hmk : matchKeyEnd (k ++ t) = true := (matchKeyEnd_iff (k ++ t)).mpr ⟨k, t, rfl, hkall, ht⟩
    simp [hlen, hlast, hmk]

/-- C9 witness: the characterization instantiated on a well-formed URI. -/
theorem is_s3_uri_amended_iff_witness : is_s3_uri "s3://bucket/test.txt" = true :=
  (is_s3_uri_amended_iff "s3://bucket/test.txt").mpr
    ⟨['b', 'u', 'c', 'k', 'e', 't'], ['t', 'e', 's', 't', '.', 't', 'x', 't'], [],
      by decide, by decide, by decide, by decide, by decide, .inl rfl⟩

end Mothrpy
